import Mathlib

/-!
Verification of the `FileHandler` utility (`src/app.py`).

The filesystem is modelled as an ordered association list from paths to
entries; a path is its list of components (Python `Path` objects round-trip
with their `str` form, so we work with component lists directly).  File bytes
are abstracted to a size plus an opaque content identifier; `shutil.copy2`
transfers size, content and mtime (it preserves metadata).  `st_mtime`
together with `datetime.fromtimestamp` is modelled by storing the local
calendar time of last modification directly in the file's metadata.

OS-level failures (permission errors, I/O errors, cross-device rename
failures) are modelled by an error tape `errs : List Bool` in the world
state: each OS call consumes one tape entry, and `true` means the call
raises `OSError`.  An empty tape means the OS never fails.  Deterministic
errors (missing source, existing-file conflicts) are modelled directly.
Python exceptions are `Except Unit`; a `FileHandler` method whose Python
body is wrapped in `try/except` is a total function returning `Bool`
(or a list / string), with the catch at its boundary made explicit.
-/

namespace FileHandler

/-- A path, as its list of components. -/
abbrev Path := List String

/-- A local calendar timestamp (what `datetime.fromtimestamp(st_mtime)` and
`datetime.now()` yield). -/
structure DateTime where
  year : Nat
  month : Nat
  day : Nat
  hour : Nat
  minute : Nat
  second : Nat
deriving DecidableEq, Repr, Inhabited

/-- Metadata of a regular file: `st_size` in bytes, last-modified local time,
and an opaque identifier standing for the file's bytes. -/
structure FileData where
  size : Nat
  mtime : DateTime
  content : Nat
deriving DecidableEq, Repr, Inhabited

/-- A directory entry: a subdirectory or a regular file. -/
inductive Entry where
  | dir : Entry
  | file : FileData → Entry
deriving DecidableEq, Repr, Inhabited

/-- The filesystem: an ordered association list from paths to entries.
The list order is the enumeration order `os.scandir` reports. -/
structure FS where
  entries : List (Path × Entry)
deriving DecidableEq, Repr, Inhabited

/-- First binding of a path, as `os.stat` would resolve it. -/
def FS.lookup (fs : FS) (p : Path) : Option Entry :=
  (fs.entries.find? (fun e => decide (e.1 = p))).map Prod.snd

/-- The path exists and is a directory.  The empty path is the root /
current working directory, which always exists. -/
def FS.isDir (fs : FS) (p : Path) : Bool :=
  p = [] || fs.lookup p = some Entry.dir

/-- The path is bound to a regular file. -/
def FS.isFile (fs : FS) (p : Path) : Bool :=
  match fs.lookup p with
  | some (Entry.file _) => true
  | _ => false

/-- Overwrite (or create) a regular file at `p`. -/
def FS.setFile (fs : FS) (p : Path) (d : FileData) : FS :=
  ⟨fs.entries.filter (fun e => decide (e.1 ≠ p)) ++ [(p, Entry.file d)]⟩

/-- Remove the binding at `p`. -/
def FS.remove (fs : FS) (p : Path) : FS :=
  ⟨fs.entries.filter (fun e => decide (e.1 ≠ p))⟩

/-- One `logging` record: `true` for `logger.error`, `false` for
`logger.info`, with the message text (the interpolated exception text of an
`except` block is abstracted away). -/
structure LogEntry where
  isError : Bool
  msg : String
deriving DecidableEq, Repr, Inhabited

/-- World state: the filesystem, the OS error tape, and the emitted log
(most recent entry first). -/
structure World where
  fs : FS
  errs : List Bool
  log : List LogEntry
deriving DecidableEq, Repr, Inhabited

/-- Consume one entry of the error tape; an exhausted tape yields no error. -/
def takeErr : World → Bool × World
  | ⟨fs, [], log⟩ => (false, ⟨fs, [], log⟩)
  | ⟨fs, e :: rest, log⟩ => (e, ⟨fs, rest, log⟩)

/-- Emit a `logger.info` record. -/
def logInfo (m : String) (w : World) : World :=
  ⟨w.fs, w.errs, ⟨false, m⟩ :: w.log⟩

/-- Emit a `logger.error` record. -/
def logError (m : String) (w : World) : World :=
  ⟨w.fs, w.errs, ⟨true, m⟩ :: w.log⟩

/-- `os.path.basename` / `Path.name`: the final component. -/
def pathName (p : Path) : String := p.getLastD ""

/-- `Path.parent`: the path without its final component. -/
def pathParent (p : Path) : Path := p.dropLast

/-- `str(path)`: components joined by the separator. -/
def pathStr (p : Path) : String := String.intercalate "/" p

/-- Index of the last occurrence of `'.'`, as `str.rfind` computes it. -/
def lastDotAux : List Char → Nat → Option Nat → Option Nat
  | [], _, acc => acc
  | c :: cs, i, acc => lastDotAux cs (i + 1) (if c = '.' then some i else acc)

/-- `PurePath` stem/suffix split of a final component: the last dot splits
stem from suffix only when it is neither the leading character nor the last
character of the name (CPython's `_PathParents` rule). -/
def splitName (n : String) : String × String :=
  let cs := n.data
  match lastDotAux cs 0 none with
  | some i =>
      if 0 < i ∧ i < cs.length - 1 then (⟨cs.take i⟩, ⟨cs.drop i⟩)
      else (n, "")
  | none => (n, "")

/-- `Path.stem`. -/
def nameStem (n : String) : String := (splitName n).1

/-- `Path.suffix`. -/
def nameSuffix (n : String) : String := (splitName n).2

/-- Glob match of a name against the pattern `"*" ++ ext` for a literal
extension (no wildcard metacharacters): the name ends with `ext`.
`pathlib`'s glob does not hide dotfiles. -/
def globMatch (ext : String) (n : String) : Bool :=
  ext.data.isSuffixOf n.data

/-- All proper-and-full prefixes of a path, shortest first: the directories
`Path.mkdir(parents=True)` creates in order. -/
def ancestors (p : Path) : List Path :=
  (List.range p.length).map (fun i => p.take (i + 1))

/-- One `os.mkdir`-like step of `Path.mkdir(parents=True, exist_ok=True)`:
an existing directory is accepted (`exist_ok`), an existing file raises
`FileExistsError`, and a missing path is created. -/
def mkdirStep (fs : FS) (p : Path) : Except Unit FS :=
  match fs.lookup p with
  | some Entry.dir => Except.ok fs
  | some (Entry.file _) => Except.error ()
  | none => Except.ok ⟨fs.entries ++ [(p, Entry.dir)]⟩

/-- Create each listed directory in turn; directories created before a
failing step persist, as in CPython's recursive `mkdir`. -/
def mkdirList : List Path → FS → Except Unit Unit × FS
  | [], fs => (Except.ok (), fs)
  | p :: ps, fs =>
      match mkdirStep fs p with
      | Except.ok fs' => mkdirList ps fs'
      | Except.error _ => (Except.error (), fs)

/-- `Path.mkdir(parents=True, exist_ok=True)` as one OS call: the error tape
models permission / I/O errors. -/
def os_mkdir_parents (p : Path) (w : World) : Except Unit Unit × World :=
  let (e, w1) := takeErr w
  if e then (Except.error (), w1)
  else
    match mkdirList (ancestors p) w1.fs with
    | (Except.ok (), fs') => (Except.ok (), ⟨fs', w1.errs, w1.log⟩)
    | (Except.error _, fs') => (Except.error (), ⟨fs', w1.errs, w1.log⟩)

/-- `os.stat`: raises on a missing path; succeeds on files and directories
(directory metadata is filesystem-dependent and modelled as zeros). -/
def os_stat (p : Path) (w : World) : Except Unit FileData × World :=
  let (e, w1) := takeErr w
  if e then (Except.error (), w1)
  else
    match w1.fs.lookup p with
    | some (Entry.file d) => (Except.ok d, w1)
    | some Entry.dir => (Except.ok default, w1)
    | none => (Except.error (), w1)

/-- `os.unlink`: removes a regular file; raises on a missing path or a
directory. -/
def os_unlink (p : Path) (w : World) : Except Unit Unit × World :=
  let (e, w1) := takeErr w
  if e then (Except.error (), w1)
  else
    match w1.fs.lookup p with
    | some (Entry.file _) => (Except.ok (), ⟨w1.fs.remove p, w1.errs, w1.log⟩)
    | _ => (Except.error (), w1)

/-- `os.rename`: raises on a missing source or a missing destination parent.
A file source silently replaces a destination file but cannot replace a
directory; a directory source requires an absent destination and cannot be
moved beneath itself, and relocating it rewrites every path under it.  The
error tape additionally models `EXDEV` and other `OSError`s. -/
def os_rename (src dst : Path) (w : World) : Except Unit Unit × World :=
  let (e, w1) := takeErr w
  if e then (Except.error (), w1)
  else
    match w1.fs.lookup src with
    | some (Entry.file d) =>
        if src = dst then (Except.ok (), w1)
        else if w1.fs.isDir (pathParent dst) then
          match w1.fs.lookup dst with
          | some Entry.dir => (Except.error (), w1)
          | _ => (Except.ok (), ⟨(w1.fs.remove src).setFile dst d, w1.errs, w1.log⟩)
        else (Except.error (), w1)
    | some Entry.dir =>
        if src = dst then (Except.ok (), w1)
        else if w1.fs.isDir (pathParent dst) ∧ w1.fs.lookup dst = none ∧
            ¬ src.isPrefixOf dst then
          (Except.ok (),
           ⟨⟨w1.fs.entries.map (fun x =>
              if src.isPrefixOf x.1 then (dst ++ x.1.drop src.length, x.2)
              else x)⟩, w1.errs, w1.log⟩)
        else (Except.error (), w1)
    | none => (Except.error (), w1)

/-- `shutil.copy2` on a regular file: raises on a missing or non-file
source; an existing destination directory means copying into it under the
source's name; copying a file onto itself raises `SameFileError`; a missing
destination parent raises.  Size, content and mtime transfer (`copy2`
preserves metadata); the destination file is overwritten if present. -/
def shutil_copy2 (src dst : Path) (w : World) : Except Unit Unit × World :=
  let (e, w1) := takeErr w
  if e then (Except.error (), w1)
  else
    match w1.fs.lookup src with
    | some (Entry.file d) =>
        let target := if w1.fs.lookup dst = some Entry.dir
          then dst ++ [pathName src] else dst
        if target = src then (Except.error (), w1)
        else if w1.fs.isDir (pathParent target) then
          match w1.fs.lookup target with
          | some Entry.dir => (Except.error (), w1)
          | _ => (Except.ok (), ⟨w1.fs.setFile target d, w1.errs, w1.log⟩)
        else (Except.error (), w1)
    | _ => (Except.error (), w1)

/-- `shutil.move`: an existing destination directory redirects to
`dst/<basename src>` and an existing entry there is an immediate error;
otherwise `os.rename` is attempted, and on `OSError` the fallback for a
regular file is `copy2` followed by `os.unlink` of the source (the
directory-source fallback, `copytree` + `rmtree`, is not exercised by the
claims and surfaces here as the copy step's error). -/
def shutil_move (src dst : Path) (w : World) : Except Unit Unit × World :=
  let real_dst := if w.fs.lookup dst = some Entry.dir
    then dst ++ [pathName src] else dst
  if w.fs.lookup dst = some Entry.dir ∧ w.fs.lookup real_dst ≠ none then
    (Except.error (), w)
  else
    match os_rename src real_dst w with
    | (Except.ok (), w') => (Except.ok (), w')
    | (Except.error _, w') =>
        match shutil_copy2 src real_dst w' with
        | (Except.ok (), w'') => os_unlink src w''
        | (Except.error _, w'') => (Except.error (), w'')

/-- Children of a folder in `os.scandir` order: the bindings whose path is
the folder plus one component. -/
def FS.children (fs : FS) (folder : Path) : List (Path × Entry) :=
  fs.entries.filter (fun e => decide (pathParent e.1 = folder ∧ e.1 ≠ []))

/-- `os.scandir` (the engine of `Path.iterdir` and `Path.glob`): raises on a
path that is not a directory. -/
def os_scandir (folder : Path) (w : World) :
    Except Unit (List (Path × Entry)) × World :=
  let (e, w1) := takeErr w
  if e then (Except.error (), w1)
  else if w1.fs.isDir folder then (Except.ok (w1.fs.children folder), w1)
  else (Except.error (), w1)

/-- `shutil.copytree(src, dst, dirs_exist_ok=True)`: raises on a non-directory
source or a destination bound to a file; otherwise merges a copy of the whole
subtree under `dst`, overwriting colliding entries and leaving the rest of
`dst` untouched. -/
def shutil_copytree (src dst : Path) (w : World) : Except Unit Unit × World :=
  let (e, w1) := takeErr w
  if e then (Except.error (), w1)
  else if w1.fs.lookup src = some Entry.dir ∧ ¬ w1.fs.isFile dst then
    let copied := (w1.fs.entries.filter (fun x => src.isPrefixOf x.1)).map
      (fun x => (dst ++ x.1.drop src.length, x.2))
    (Except.ok (),
     ⟨⟨w1.fs.entries.filter (fun x => ¬ copied.any (fun c => c.1 = x.1)) ++ copied⟩,
      w1.errs, w1.log⟩)
  else (Except.error (), w1)

/-- `shutil.rmtree`: raises on a path that is not a directory; otherwise
removes the directory and every entry beneath it. -/
def shutil_rmtree (p : Path) (w : World) : Except Unit Unit × World :=
  let (e, w1) := takeErr w
  if e then (Except.error (), w1)
  else if w1.fs.lookup p = some Entry.dir then
    (Except.ok (),
     ⟨⟨w1.fs.entries.filter (fun x => ¬ p.isPrefixOf x.1)⟩, w1.errs, w1.log⟩)
  else (Except.error (), w1)

/-- Python's truthiness test `if extension:` on an optional string. -/
def truthy : Option String → Bool
  | none => false
  | some s => s ≠ ""

/-- Is the entry a regular file (`Path.is_file`)? -/
def Entry.isFile : Entry → Bool
  | Entry.file _ => true
  | Entry.dir => false

/-- Zero-pad to two digits, as `strftime`'s `%m`, `%d`, `%H`, `%M`, `%S`. -/
def pad2 (n : Nat) : String :=
  if n < 10 then "0" ++ toString n else toString n

/-- Zero-pad to four digits, as `strftime`'s `%Y`. -/
def pad4 (n : Nat) : String :=
  if n < 10 then "000" ++ toString n
  else if n < 100 then "00" ++ toString n
  else if n < 1000 then "0" ++ toString n
  else toString n

/-- `strftime("%Y-%m")` of a local timestamp. -/
def fmtYm (t : DateTime) : String := pad4 t.year ++ "-" ++ pad2 t.month

/-- `strftime("%Y%m%d_%H%M%S")` of a local timestamp. -/
def fmtTimestamp (t : DateTime) : String :=
  pad4 t.year ++ pad2 t.month ++ pad2 t.day ++ "_" ++
    pad2 t.hour ++ pad2 t.minute ++ pad2 t.second

/-- Convert a raised-or-returned body into the `try/except` boundary of a
boolean-returning `FileHandler` method: success emits the method's
`logger.info` line and returns `True`; the `except` handler emits the
`logger.error` line and returns `False`. -/
def catchBool (okMsg errMsg : String) (body : World → Except Unit Unit × World)
    (w : World) : Bool × World :=
  match body w with
  | (Except.ok (), w') => (true, logInfo okMsg w')
  | (Except.error _, w') => (false, logError errMsg w')

/-- Body of `FileHandler.create_folder`. -/
def create_folder_body (p : Path) (w : World) : Except Unit Unit × World :=
  os_mkdir_parents p w

/-- `FileHandler.create_folder`: `mkdir(parents=True, exist_ok=True)` in a
`try/except` returning a boolean. -/
def create_folder (p : Path) (w : World) : Bool × World :=
  catchBool ("Folder created/verified: " ++ pathStr p)
    ("Error creating folder " ++ pathStr p) (create_folder_body p) w

/-- Body of `FileHandler.copy_file`: ensure the destination's parent exists
(the boolean result of `create_folder` is not consulted), then
`shutil.copy2`. -/
def copy_file_body (src dst : Path) (w : World) : Except Unit Unit × World :=
  let w1 := (create_folder (pathParent dst) w).2
  shutil_copy2 src dst w1

/-- `FileHandler.copy_file`. -/
def copy_file (src dst : Path) (w : World) : Bool × World :=
  catchBool ("File copied: " ++ pathStr src ++ " -> " ++ pathStr dst)
    ("Error copying file " ++ pathStr src ++ " to " ++ pathStr dst)
    (copy_file_body src dst) w

/-- Body of `FileHandler.move_file`: ensure the destination's parent exists
(result not consulted), then `shutil.move`. -/
def move_file_body (src dst : Path) (w : World) : Except Unit Unit × World :=
  let w1 := (create_folder (pathParent dst) w).2
  shutil_move src dst w1

/-- `FileHandler.move_file`. -/
def move_file (src dst : Path) (w : World) : Bool × World :=
  catchBool ("File moved: " ++ pathStr src ++ " -> " ++ pathStr dst)
    ("Error moving file " ++ pathStr src ++ " to " ++ pathStr dst)
    (move_file_body src dst) w

/-- Body of `FileHandler.copy_folder`. -/
def copy_folder_body (src dst : Path) (w : World) : Except Unit Unit × World :=
  shutil_copytree src dst w

/-- `FileHandler.copy_folder`. -/
def copy_folder (src dst : Path) (w : World) : Bool × World :=
  catchBool ("Folder copied: " ++ pathStr src ++ " -> " ++ pathStr dst)
    ("Error copying folder " ++ pathStr src ++ " to " ++ pathStr dst)
    (copy_folder_body src dst) w

/-- Body of `FileHandler.move_folder`. -/
def move_folder_body (src dst : Path) (w : World) : Except Unit Unit × World :=
  shutil_move src dst w

/-- `FileHandler.move_folder`. -/
def move_folder (src dst : Path) (w : World) : Bool × World :=
  catchBool ("Folder moved: " ++ pathStr src ++ " -> " ++ pathStr dst)
    ("Error moving folder " ++ pathStr src ++ " to " ++ pathStr dst)
    (move_folder_body src dst) w

/-- Body of `FileHandler.delete_file`: `Path.unlink`. -/
def delete_file_body (p : Path) (w : World) : Except Unit Unit × World :=
  os_unlink p w

/-- `FileHandler.delete_file`. -/
def delete_file (p : Path) (w : World) : Bool × World :=
  catchBool ("File deleted: " ++ pathStr p)
    ("Error deleting file " ++ pathStr p) (delete_file_body p) w

/-- Body of `FileHandler.delete_folder`: `shutil.rmtree`. -/
def delete_folder_body (p : Path) (w : World) : Except Unit Unit × World :=
  shutil_rmtree p w

/-- `FileHandler.delete_folder`. -/
def delete_folder (p : Path) (w : World) : Bool × World :=
  catchBool ("Folder deleted: " ++ pathStr p)
    ("Error deleting folder " ++ pathStr p) (delete_folder_body p) w

/-- Body of `FileHandler.list_files`: `folder.glob("*" + extension)` when the
extension is truthy, else the `is_file`-filtered `iterdir`.  Note the glob
branch keeps every matching entry, directories included. -/
def list_files_body (folder : Path) (extension : Option String) (w : World) :
    Except Unit (List Path) × World :=
  match os_scandir folder w with
  | (Except.error _, w') => (Except.error (), w')
  | (Except.ok entries, w') =>
      if truthy extension then
        (Except.ok ((entries.filter
          (fun x => globMatch (extension.getD "") (pathName x.1))).map Prod.fst),
         w')
      else
        (Except.ok ((entries.filter (fun x => x.2.isFile)).map Prod.fst), w')

/-- `FileHandler.list_files`: the body in a `try/except` that converts any
error into the empty list. -/
def list_files (folder : Path) (extension : Option String) (w : World) :
    List Path × World :=
  match list_files_body folder extension w with
  | (Except.ok l, w') =>
      (l, logInfo ("Found " ++ toString l.length ++ " files in " ++
        pathStr folder) w')
  | (Except.error _, w') =>
      ([], logError ("Error listing files in " ++ pathStr folder) w')

/-- The backup destination `FileHandler.backup_excel_file` computes:
`<resolved backup folder>/<stem>_backup_<timestamp><suffix>`, where the
backup folder defaults to `<base>/backups`. -/
def backupDest (base excel_path : Path) (backup_folder : Option Path)
    (now : DateTime) : Path :=
  backup_folder.getD (base ++ ["backups"]) ++
    [nameStem (pathName excel_path) ++ "_backup_" ++ fmtTimestamp now ++
      nameSuffix (pathName excel_path)]

/-- Body of `FileHandler.backup_excel_file`: resolve the backup folder
(defaulting to `<base>/backups`), call `create_folder` on it and `copy_file`
for the data — both of which catch their own errors, so neither call can
raise here and their boolean results are not consulted — and return the
string form of the computed backup path.  `base` is the handler's
`base_folder`; `now` is what `datetime.now()` returns. -/
def backup_excel_file_body (base excel_path : Path)
    (backup_folder : Option Path) (now : DateTime) (w : World) :
    Except Unit String × World :=
  let bf := backup_folder.getD (base ++ ["backups"])
  let w1 := (create_folder bf w).2
  let backup_path := backupDest base excel_path backup_folder now
  let w2 := (copy_file excel_path backup_path w1).2
  (Except.ok (pathStr backup_path), w2)

/-- `FileHandler.backup_excel_file`: the body in a `try/except` whose handler
returns the empty string. -/
def backup_excel_file (base excel_path : Path) (backup_folder : Option Path)
    (now : DateTime) (w : World) : String × World :=
  match backup_excel_file_body base excel_path backup_folder now w with
  | (Except.ok s, w') => (s, w')
  | (Except.error _, w') =>
      ("", logError ("Error creating backup for " ++ pathStr excel_path) w')

/-- The size-bucket selection of `organize_excel_files` (criterion `size`). -/
def size_folder (size : Nat) : String :=
  if size < 1024 * 1024 then "small"
  else if size < 10 * (1024 * 1024) then "medium"
  else "large"

/-- The destination-folder computation of one loop iteration of
`organize_excel_files`: `date` and `size` call `stat` (which can raise);
any other criterion takes `stem[0].upper()`, where indexing an empty stem
raises `IndexError`. -/
def compute_dest (source_folder : Path) (organize_by : String) (f : Path)
    (w : World) : Except Unit Path × World :=
  if organize_by = "date" then
    match os_stat f w with
    | (Except.ok d, w') =>
        (Except.ok (source_folder ++ ["organized_by_date", fmtYm d.mtime]), w')
    | (Except.error _, w') => (Except.error (), w')
  else if organize_by = "size" then
    match os_stat f w with
    | (Except.ok d, w') =>
        (Except.ok (source_folder ++ ["organized_by_size", size_folder d.size]),
         w')
    | (Except.error _, w') => (Except.error (), w')
  else
    match (nameStem (pathName f)).data with
    | [] => (Except.error (), w)
    | c :: _ =>
        (Except.ok (source_folder ++ ["organized_by_name", String.mk [c.toUpper]]),
         w)

/-- One loop iteration of `organize_excel_files`: compute the destination
folder (which can raise), then `create_folder` and `move_file` — whose
boolean results are not consulted, so once the destination is computed the
iteration cannot raise. -/
def organize_one (source_folder : Path) (organize_by : String) (f : Path)
    (w : World) : Except Unit Unit × World :=
  match compute_dest source_folder organize_by f w with
  | (Except.error _, w') => (Except.error (), w')
  | (Except.ok dest_folder, w') =>
      let w2 := (create_folder dest_folder w').2
      let w3 := (move_file f (dest_folder ++ [pathName f]) w2).2
      (Except.ok (), w3)

/-- The `for file_path in excel_files` loop of `organize_excel_files`: stops
early only when an iteration raises. -/
def organize_loop (source_folder : Path) (organize_by : String) :
    List Path → World → Except Unit Unit × World
  | [], w => (Except.ok (), w)
  | f :: rest, w =>
      match organize_one source_folder organize_by f w with
      | (Except.ok (), w') => organize_loop source_folder organize_by rest w'
      | (Except.error _, w') => (Except.error (), w')

/-- The enumeration step of `organize_excel_files`: `list_files` with
`.xlsx`, extended with `list_files` with `.xls`. -/
def organize_enum (source_folder : Path) (w : World) : List Path × World :=
  let (a, w1) := list_files source_folder (some ".xlsx") w
  let (b, w2) := list_files source_folder (some ".xls") w1
  (a ++ b, w2)

/-- `FileHandler.organize_excel_files`: enumerate, loop, and return `True`
unless an exception escaped the loop. -/
def organize_excel_files (source_folder : Path) (organize_by : String)
    (w : World) : Bool × World :=
  let (l, w1) := organize_enum source_folder w
  match organize_loop source_folder organize_by l w1 with
  | (Except.ok (), w') => (true, w')
  | (Except.error _, w') =>
      (false, logError "Error organizing Excel files" w')

/-! Helper lemmas about the filesystem model. -/

theorem takeErr_fs (w : World) : ((takeErr w).2).fs = w.fs := by
  obtain ⟨fs, errs, log⟩ := w
  cases errs <;> rfl

theorem takeErr_nil (w : World) (h : w.errs = []) : takeErr w = (false, w) := by
  obtain ⟨fs, errs, log⟩ := w
  simp only at h
  subst h
  rfl

theorem find?_key_filter_ne (l : List (Path × Entry)) (p q : Path) (hq : q ≠ p) :
    (l.filter (fun e => decide (e.1 ≠ p))).find? (fun e => decide (e.1 = q)) =
      l.find? (fun e => decide (e.1 = q)) := by
  induction l with
  | nil => rfl
  | cons x xs ih =>
      by_cases hx : x.1 = p
      · have h1 : (decide (x.1 ≠ p)) = false := by simp [hx]
        have h2 : (decide (x.1 = q)) = false := by
          simp only [decide_eq_false_iff_not]
          intro h
          exact hq (by rw [← h, hx])
        simp only [List.filter_cons, h1, Bool.false_eq_true, if_false,
          List.find?_cons, h2]
        exact ih
      · have h1 : (decide (x.1 ≠ p)) = true := by simp [hx]
        by_cases hxq : x.1 = q
        · have h2 : (decide (x.1 = q)) = true := by simp [hxq]
          simp only [List.filter_cons, h1, if_true, List.find?_cons, h2]
        · have h2 : (decide (x.1 = q)) = false := by simp [hxq]
          simp only [List.filter_cons, h1, if_true, List.find?_cons, h2]
          exact ih

theorem lookup_setFile_self (fs : FS) (p : Path) (d : FileData) :
    (fs.setFile p d).lookup p = some (Entry.file d) := by
  unfold FS.setFile FS.lookup
  rw [List.find?_append]
  have h1 : (fs.entries.filter (fun e => decide (e.1 ≠ p))).find?
      (fun e => decide (e.1 = p)) = none := by
    rw [List.find?_eq_none]
    intro x hx
    have := List.of_mem_filter hx
    simp only [decide_eq_true_eq] at this ⊢
    exact this
  rw [h1]
  simp [List.find?_cons]

theorem lookup_setFile_ne (fs : FS) (p q : Path) (d : FileData) (hq : q ≠ p) :
    (fs.setFile p d).lookup q = fs.lookup q := by
  unfold FS.setFile FS.lookup
  rw [List.find?_append, find?_key_filter_ne fs.entries p q hq]
  have h2 : (([(p, Entry.file d)] : List (Path × Entry)).find?
      (fun e => decide (e.1 = q))) = none := by
    have hd : (decide ((p, Entry.file d).1 = q)) = false := by
      simp only [decide_eq_false_iff_not]
      intro h
      exact hq h.symm
    simp only [List.find?_cons, hd]
    rfl
  rw [h2]
  cases fs.entries.find? (fun e => decide (e.1 = q)) <;> rfl

theorem lookup_append_one (fs : FS) (q : Path) (x : Path × Entry) :
    (FS.mk (fs.entries ++ [x])).lookup q =
      ((fs.lookup q).or (if x.1 = q then some x.2 else none)) := by
  unfold FS.lookup
  rw [List.find?_append]
  by_cases hx : x.1 = q
  · cases h : fs.entries.find? (fun e => decide (e.1 = q)) <;>
      simp [h, List.find?_cons, hx]
  · cases h : fs.entries.find? (fun e => decide (e.1 = q)) <;>
      simp [h, List.find?_cons, hx]

theorem lookup_eq_none_iff (fs : FS) (q : Path) :
    fs.lookup q = none ↔ q ∉ fs.entries.map Prod.fst := by
  unfold FS.lookup
  rw [Option.map_eq_none', List.find?_eq_none]
  constructor
  · intro h hq
    obtain ⟨x, hx, hxq⟩ := List.mem_map.1 hq
    exact h x hx (by simp [hxq])
  · intro h x hx
    simp only [decide_eq_true_eq]
    intro hxq
    exact h (List.mem_map.2 ⟨x, hx, hxq⟩)

theorem mkdirStep_lookup_some {fs fs' : FS} {p q : Path} {e : Entry}
    (hstep : mkdirStep fs p = Except.ok fs') (h : fs.lookup q = some e) :
    fs'.lookup q = some e := by
  unfold mkdirStep at hstep
  cases hl : fs.lookup p with
  | some ent =>
      cases ent with
      | dir =>
          rw [hl] at hstep
          cases hstep
          exact h
      | file d =>
          rw [hl] at hstep
          cases hstep
  | none =>
      rw [hl] at hstep
      cases hstep
      rw [lookup_append_one, h]
      rfl

theorem mkdirStep_lookup_ne {fs fs' : FS} {p q : Path}
    (hstep : mkdirStep fs p = Except.ok fs') (hq : q ≠ p) :
    fs'.lookup q = fs.lookup q := by
  unfold mkdirStep at hstep
  cases hl : fs.lookup p with
  | some ent =>
      cases ent with
      | dir => rw [hl] at hstep; cases hstep; rfl
      | file d => rw [hl] at hstep; cases hstep
  | none =>
      rw [hl] at hstep
      cases hstep
      rw [lookup_append_one]
      have : ((p, Entry.dir).1 = q) = False := by
        simp only [eq_iff_iff, iff_false]
        intro h
        exact hq h.symm
      simp only [this, if_false]
      cases fs.lookup q <;> rfl

theorem mkdirStep_post {fs fs' : FS} {p : Path}
    (hstep : mkdirStep fs p = Except.ok fs') :
    fs'.lookup p = some Entry.dir := by
  unfold mkdirStep at hstep
  cases hl : fs.lookup p with
  | some ent =>
      cases ent with
      | dir => rw [hl] at hstep; cases hstep; exact hl
      | file d => rw [hl] at hstep; cases hstep
  | none =>
      rw [hl] at hstep
      cases hstep
      rw [lookup_append_one, hl]
      simp

theorem mkdirStep_ok_of_not_file {fs : FS} {p : Path}
    (h : fs.isFile p = false) : ∃ fs', mkdirStep fs p = Except.ok fs' := by
  unfold FS.isFile at h
  unfold mkdirStep
  cases hl : fs.lookup p with
  | some ent =>
      cases ent with
      | dir => exact ⟨fs, rfl⟩
      | file d => rw [hl] at h; cases h
  | none => exact ⟨⟨fs.entries ++ [(p, Entry.dir)]⟩, rfl⟩

theorem mkdirStep_isFile_false {fs fs' : FS} {p q : Path}
    (hstep : mkdirStep fs p = Except.ok fs') (h : fs.isFile q = false) :
    fs'.isFile q = false := by
  by_cases hq : q = p
  · subst hq
    unfold FS.isFile
    rw [mkdirStep_post hstep]
  · unfold FS.isFile at h ⊢
    rw [mkdirStep_lookup_ne hstep hq]
    exact h

theorem mkdirStep_nodup {fs fs' : FS} {p : Path}
    (hstep : mkdirStep fs p = Except.ok fs')
    (h : (fs.entries.map Prod.fst).Nodup) :
    (fs'.entries.map Prod.fst).Nodup := by
  unfold mkdirStep at hstep
  cases hl : fs.lookup p with
  | some ent =>
      cases ent with
      | dir => rw [hl] at hstep; cases hstep; exact h
      | file d => rw [hl] at hstep; cases hstep
  | none =>
      rw [hl] at hstep
      cases hstep
      have hp : p ∉ fs.entries.map Prod.fst := (lookup_eq_none_iff fs p).1 hl
      simp only [List.map_append, List.map_cons, List.map_nil]
      rw [List.nodup_append]
      refine ⟨h, List.nodup_singleton p, ?_⟩
      intro a ha hb
      simp only [List.mem_singleton] at hb
      subst hb
      exact hp ha

theorem mkdirList_lookup_some {ps : List Path} {fs : FS} {q : Path} {e : Entry}
    (h : fs.lookup q = some e) : ((mkdirList ps fs).2).lookup q = some e := by
  induction ps generalizing fs with
  | nil => exact h
  | cons p rest ih =>
      unfold mkdirList
      cases hstep : mkdirStep fs p with
      | ok fs' => exact ih (mkdirStep_lookup_some hstep h)
      | error u => exact h

theorem mkdirList_lookup_not_mem {ps : List Path} {fs : FS} {q : Path}
    (hq : q ∉ ps) : ((mkdirList ps fs).2).lookup q = fs.lookup q := by
  induction ps generalizing fs with
  | nil => rfl
  | cons p rest ih =>
      have hqp : q ≠ p := fun h => hq (h ▸ List.mem_cons_self p rest)
      have hqr : q ∉ rest := fun h => hq (List.mem_cons_of_mem p h)
      unfold mkdirList
      cases hstep : mkdirStep fs p with
      | ok fs' => rw [ih hqr, mkdirStep_lookup_ne hstep hqp]
      | error u => rfl

theorem mkdirList_ok {ps : List Path} {fs : FS}
    (h : ∀ q ∈ ps, fs.isFile q = false) :
    (mkdirList ps fs).1 = Except.ok () ∧
      ∀ q ∈ ps, ((mkdirList ps fs).2).lookup q = some Entry.dir := by
  induction ps generalizing fs with
  | nil => exact ⟨rfl, by intro q hq; cases hq⟩
  | cons p rest ih =>
      obtain ⟨fs', hstep⟩ := mkdirStep_ok_of_not_file (h p (List.mem_cons_self p rest))
      have hrest : ∀ q ∈ rest, fs'.isFile q = false := fun q hq =>
        mkdirStep_isFile_false hstep (h q (List.mem_cons_of_mem p hq))
      obtain ⟨hok, hpost⟩ := ih hrest
      constructor
      · unfold mkdirList
        rw [hstep]
        exact hok
      · intro q hq
        unfold mkdirList
        rw [hstep]
        rcases List.mem_cons.1 hq with hqp | hqr
        · subst hqp
          exact mkdirList_lookup_some (mkdirStep_post hstep)
        · exact hpost q hqr

theorem mkdirList_noop {ps : List Path} {fs : FS}
    (h : ∀ q ∈ ps, fs.lookup q = some Entry.dir) :
    mkdirList ps fs = (Except.ok (), fs) := by
  induction ps with
  | nil => rfl
  | cons p rest ih =>
      have hstep : mkdirStep fs p = Except.ok fs := by
        unfold mkdirStep
        rw [h p (List.mem_cons_self p rest)]
      unfold mkdirList
      rw [hstep]
      exact ih (fun q hq => h q (List.mem_cons_of_mem p hq))

theorem mkdirList_nodup {ps : List Path} {fs : FS}
    (h : (fs.entries.map Prod.fst).Nodup) :
    (((mkdirList ps fs).2).entries.map Prod.fst).Nodup := by
  induction ps generalizing fs with
  | nil => exact h
  | cons p rest ih =>
      unfold mkdirList
      cases hstep : mkdirStep fs p with
      | ok fs' => exact ih (mkdirStep_nodup hstep h)
      | error u => exact h

theorem mem_keys_of_lookup_some {fs : FS} {q : Path} {e : Entry}
    (h : fs.lookup q = some e) : q ∈ fs.entries.map Prod.fst := by
  unfold FS.lookup at h
  obtain ⟨a, ha, hae⟩ := Option.map_eq_some'.1 h
  have hq : a.1 = q := by
    have := List.find?_some ha
    simpa using this
  exact List.mem_map.2 ⟨a, List.mem_of_find?_eq_some ha, hq⟩

theorem length_of_mem_ancestors {p q : Path} (h : q ∈ ancestors p) :
    0 < q.length ∧ q.length ≤ p.length := by
  unfold ancestors at h
  obtain ⟨i, hi, hq⟩ := List.mem_map.1 h
  rw [List.mem_range] at hi
  subst hq
  rw [List.length_take]
  omega

theorem mem_ancestors_self {p : Path} (h : p ≠ []) : p ∈ ancestors p := by
  unfold ancestors
  have hl : 0 < p.length := List.length_pos.2 h
  refine List.mem_map.2 ⟨p.length - 1, List.mem_range.2 (by omega), ?_⟩
  have : p.length - 1 + 1 = p.length := by omega
  rw [this, List.take_length]

theorem not_mem_ancestors_parent (dst : Path) :
    dst ∉ ancestors (pathParent dst) := by
  intro h
  have hlen := (length_of_mem_ancestors h).2
  unfold pathParent at hlen
  rw [List.length_dropLast] at hlen
  have hpos := (length_of_mem_ancestors h).1
  omega

theorem create_folder_fs (p : Path) (w : World) :
    ((create_folder p w).2).fs =
      if (takeErr w).1 then w.fs
      else (mkdirList (ancestors p) w.fs).2 := by
  unfold create_folder catchBool create_folder_body os_mkdir_parents
  rcases htk : takeErr w with ⟨e, w1⟩
  have hfs : w1.fs = w.fs := by rw [← takeErr_fs w, htk]
  rw [← hfs]
  cases e with
  | true => simp [logError]
  | false =>
      rcases hm : mkdirList (ancestors p) w1.fs with ⟨exc, fs'⟩
      cases exc with
      | ok u =>
          cases u
          simp [hm, logInfo]
      | error u => simp [hm, logError]

theorem create_folder_lookup_some (p : Path) (w : World) {q : Path} {e : Entry}
    (h : w.fs.lookup q = some e) :
    ((create_folder p w).2).fs.lookup q = some e := by
  rw [create_folder_fs]
  split
  · exact h
  · exact mkdirList_lookup_some h

theorem create_folder_lookup_not_mem (p : Path) (w : World) {q : Path}
    (h : q ∉ ancestors p) :
    ((create_folder p w).2).fs.lookup q = w.fs.lookup q := by
  rw [create_folder_fs]
  split
  · rfl
  · exact mkdirList_lookup_not_mem h

theorem create_folder_ok (p : Path) (w : World) (he : w.errs = [])
    (hf : ∀ q ∈ ancestors p, w.fs.isFile q = false) :
    (create_folder p w).1 = true ∧
      ((create_folder p w).2).fs = (mkdirList (ancestors p) w.fs).2 ∧
      ((create_folder p w).2).errs = [] ∧
      ∀ q ∈ ancestors p, ((create_folder p w).2).fs.lookup q = some Entry.dir := by
  obtain ⟨hok, hpost⟩ := mkdirList_ok hf
  rcases hm : mkdirList (ancestors p) w.fs with ⟨exc, fs'⟩
  rw [hm] at hok hpost
  cases exc with
  | error u => exact absurd hok (by simp)
  | ok u =>
      cases u
      unfold create_folder catchBool create_folder_body os_mkdir_parents
      rw [takeErr_nil w he]
      dsimp only
      rw [hm]
      dsimp only [logInfo]
      exact ⟨rfl, rfl, he, hpost⟩

theorem copy_file_ok (src dst : Path) (d : FileData) (w : World)
    (he : w.errs = [])
    (hanc : ∀ q ∈ ancestors (pathParent dst), w.fs.isFile q = false)
    (hsrc : w.fs.lookup src = some (Entry.file d))
    (hne : dst ≠ src)
    (hnd : w.fs.lookup dst ≠ some Entry.dir) :
    (copy_file src dst w).1 = true ∧
      ((copy_file src dst w).2).fs.lookup dst = some (Entry.file d) ∧
      ((copy_file src dst w).2).errs = [] ∧
      ∀ q, q ≠ dst → ((copy_file src dst w).2).fs.lookup q =
        ((create_folder (pathParent dst) w).2).fs.lookup q := by
  obtain ⟨_, _, he1, hdirs⟩ := create_folder_ok (pathParent dst) w he hanc
  have hsrc1 : ((create_folder (pathParent dst) w).2).fs.lookup src =
      some (Entry.file d) := create_folder_lookup_some _ _ hsrc
  have hdst1 : ((create_folder (pathParent dst) w).2).fs.lookup dst =
      w.fs.lookup dst :=
    create_folder_lookup_not_mem _ _ (not_mem_ancestors_parent dst)
  have hpd : ((create_folder (pathParent dst) w).2).fs.isDir (pathParent dst)
      = true := by
    by_cases hp : pathParent dst = []
    · unfold FS.isDir
      simp [hp]
    · unfold FS.isDir
      rw [hdirs (pathParent dst) (mem_ancestors_self hp)]
      simp
  unfold copy_file catchBool copy_file_body
  unfold shutil_copy2
  dsimp only
  rw [takeErr_nil _ he1]
  dsimp only
  rw [hsrc1]
  dsimp only
  have hcond : (((create_folder (pathParent dst) w).2).fs.lookup dst =
      some Entry.dir) = False := by
    simp only [eq_iff_iff, iff_false]
    rw [hdst1]
    exact hnd
  simp only [hcond, if_false, hne, hpd, if_true]
  rcases hv : ((create_folder (pathParent dst) w).2).fs.lookup dst with _ | ent
  · dsimp only [logInfo]
    refine ⟨rfl, lookup_setFile_self _ _ _, he1, ?_⟩
    intro q hq
    exact lookup_setFile_ne _ _ _ _ hq
  · cases ent with
    | dir => exact absurd (hdst1 ▸ hv) hnd
    | file d0 =>
        dsimp only [logInfo]
        refine ⟨rfl, lookup_setFile_self _ _ _, he1, ?_⟩
        intro q hq
        exact lookup_setFile_ne _ _ _ _ hq

theorem list_files_glob_eq (folder : Path) (e : String) (w : World)
    (he : e ≠ "") :
    (list_files folder (some e) w).1 =
      if (takeErr w).1 = false ∧ w.fs.isDir folder = true then
        ((w.fs.children folder).filter
          (fun x => globMatch e (pathName x.1))).map Prod.fst
      else [] := by
  unfold list_files list_files_body os_scandir
  rcases htk : takeErr w with ⟨b, w1⟩
  have hfs : w1.fs = w.fs := by rw [← takeErr_fs w, htk]
  have ht : truthy (some e) = true := by simp [truthy, he]
  cases b with
  | true => simp
  | false =>
      dsimp only
      rw [hfs]
      by_cases hd : w.fs.isDir folder = true
      · simp only [hd, if_true, ht]
        simp
      · simp only [hd]
        simp [hd]

theorem list_files_iterdir_eq (folder : Path) (w : World) :
    (list_files folder none w).1 =
      if (takeErr w).1 = false ∧ w.fs.isDir folder = true then
        ((w.fs.children folder).filter (fun x => x.2.isFile)).map Prod.fst
      else [] := by
  unfold list_files list_files_body os_scandir
  rcases htk : takeErr w with ⟨b, w1⟩
  have hfs : w1.fs = w.fs := by rw [← takeErr_fs w, htk]
  cases b with
  | true => simp
  | false =>
      dsimp only
      rw [hfs]
      by_cases hd : w.fs.isDir folder = true
      · simp only [hd, if_true]
        simp [truthy]
      · simp only [hd]
        simp [hd]

/-! Concrete worlds used by witnesses and counterexamples. -/

/-- An empty filesystem with an error-free OS. -/
def wempty : World := ⟨⟨[]⟩, [], []⟩

/-- A folder `s` holding one small spreadsheet, error-free OS. -/
def wsize : World :=
  ⟨⟨[(["s"], Entry.dir),
     (["s", "a.xlsx"], Entry.file ⟨2048, ⟨2024, 1, 2, 3, 4, 5⟩, 7⟩)]⟩, [], []⟩

/-- A folder `f` holding a spreadsheet file and a directory whose name also
matches the glob `*.xlsx`. -/
def wdirglob : World :=
  ⟨⟨[(["f"], Entry.dir),
     (["f", "a.xlsx"], Entry.file ⟨100, ⟨2024, 1, 1, 0, 0, 0⟩, 1⟩),
     (["f", "d.xlsx"], Entry.dir)]⟩, [], []⟩

/-- Claim C1: under the `size` criterion the destination bucket is selected
by strict less-than thresholds — below 1,048,576 bytes `small`, below
10,485,760 bytes `medium`, else `large`, with 1,048,575 ↦ `small`,
1,048,576 ↦ `medium`, 10,485,760 ↦ `large` — and the file's move target is
`organized_by_size/<bucket>/<name>` inside the source folder. -/
theorem C1_size_buckets (source f : Path) (w w' : World) (fd : FileData)
    (h : os_stat f w = (Except.ok fd, w')) :
    compute_dest source "size" f w =
      (Except.ok (source ++ ["organized_by_size", size_folder fd.size]), w') ∧
    organize_one source "size" f w =
      (Except.ok (),
        (move_file f
          (source ++ ["organized_by_size", size_folder fd.size] ++ [pathName f])
          ((create_folder (source ++ ["organized_by_size", size_folder fd.size])
            w').2)).2) ∧
    (fd.size < 1048576 → size_folder fd.size = "small") ∧
    (1048576 ≤ fd.size → fd.size < 10485760 → size_folder fd.size = "medium") ∧
    (10485760 ≤ fd.size → size_folder fd.size = "large") ∧
    size_folder 1048575 = "small" ∧
    size_folder 1048576 = "medium" ∧
    size_folder 10485760 = "large" := by
  have hsd : ¬(("size" : String) = "date") := by decide
  have hcd : compute_dest source "size" f w =
      (Except.ok (source ++ ["organized_by_size", size_folder fd.size]), w') := by
    unfold compute_dest
    rw [if_neg hsd, if_pos rfl, h]
  have hone : organize_one source "size" f w =
      (Except.ok (),
        (move_file f
          (source ++ ["organized_by_size", size_folder fd.size] ++ [pathName f])
          ((create_folder (source ++ ["organized_by_size", size_folder fd.size])
            w').2)).2) := by
    unfold organize_one
    rw [hcd]
  refine ⟨hcd, hone, ?_, ?_, ?_, by decide, by decide, by decide⟩
  · intro hs
    unfold size_folder
    rw [if_pos (by omega)]
  · intro h1 h2
    unfold size_folder
    rw [if_neg (by omega), if_pos (by omega)]
  · intro h1
    unfold size_folder
    rw [if_neg (by omega), if_neg (by omega)]

/-- Witness for C1 at a concrete 2,048-byte file in folder `s`. -/
theorem C1_size_buckets_witness :
    os_stat ["s", "a.xlsx"] wsize =
      (Except.ok ⟨2048, ⟨2024, 1, 2, 3, 4, 5⟩, 7⟩, wsize) ∧
    (compute_dest ["s"] "size" ["s", "a.xlsx"] wsize =
      (Except.ok (["s"] ++ ["organized_by_size", size_folder 2048]), wsize) ∧
    organize_one ["s"] "size" ["s", "a.xlsx"] wsize =
      (Except.ok (),
        (move_file ["s", "a.xlsx"]
          (["s"] ++ ["organized_by_size", size_folder 2048] ++
            [pathName ["s", "a.xlsx"]])
          ((create_folder (["s"] ++ ["organized_by_size", size_folder 2048])
            wsize).2)).2) ∧
    ((2048 : Nat) < 1048576 → size_folder 2048 = "small") ∧
    ((1048576 : Nat) ≤ 2048 → 2048 < 10485760 → size_folder 2048 = "medium") ∧
    ((10485760 : Nat) ≤ 2048 → size_folder 2048 = "large") ∧
    size_folder 1048575 = "small" ∧
    size_folder 1048576 = "medium" ∧
    size_folder 10485760 = "large") :=
  ⟨rfl, C1_size_buckets ["s"] ["s", "a.xlsx"] wsize wsize
    ⟨2048, ⟨2024, 1, 2, 3, 4, 5⟩, 7⟩ rfl⟩

/-- Claim C2 (code bug): backing up a missing source file returns the
non-empty computed backup path even though the copy failed and no backup
file exists; the failure is only logged.  The `except` branch returning the
empty string is unreachable because `create_folder` and `copy_file` catch
their own errors and their boolean results are never consulted. -/
theorem C2_backup_failure_returns_nonempty_path :
    (backup_excel_file ["base"] ["data", "missing.xlsx"] none
        ⟨2024, 3, 15, 10, 0, 0⟩ wempty).1 =
      "base/backups/missing_backup_20240315_100000.xlsx" ∧
    (backup_excel_file ["base"] ["data", "missing.xlsx"] none
        ⟨2024, 3, 15, 10, 0, 0⟩ wempty).1 ≠ "" ∧
    ((backup_excel_file ["base"] ["data", "missing.xlsx"] none
        ⟨2024, 3, 15, 10, 0, 0⟩ wempty).2).fs.lookup
      ["base", "backups", "missing_backup_20240315_100000.xlsx"] = none ∧
    wempty.fs.lookup ["data", "missing.xlsx"] = none ∧
    (⟨true, "Error copying file data/missing.xlsx to base/backups/missing_backup_20240315_100000.xlsx"⟩ : LogEntry) ∈
      ((backup_excel_file ["base"] ["data", "missing.xlsx"] none
        ⟨2024, 3, 15, 10, 0, 0⟩ wempty).2).log := by
  refine ⟨rfl, by decide, rfl, rfl, ?_⟩
  decide

/-- Claim C3 (counterexample): with an extension filter, `list_files`
returns every glob-matching entry, including a directory named `d.xlsx` —
directories are not excluded on this branch. -/
theorem C3_glob_returns_directory :
    (list_files ["f"] (some ".xlsx") wdirglob).1 =
      [["f", "a.xlsx"], ["f", "d.xlsx"]] ∧
    wdirglob.fs.lookup ["f", "d.xlsx"] = some Entry.dir := by
  exact ⟨rfl, rfl⟩

/-- Claim C3 (amended): with a non-empty extension, `list_files` returns
exactly the directly-contained entries — files and directories alike —
whose name matches the glob `*<extension>`, in enumeration order; with no
extension it returns exactly the regular files; on a scandir error (bad
folder or OS failure) it returns the empty list. -/
theorem C3_list_files_behaviour (folder : Path) (e : String) (w : World)
    (he : e ≠ "") :
    ((list_files folder (some e) w).1 =
      if (takeErr w).1 = false ∧ w.fs.isDir folder = true then
        ((w.fs.children folder).filter
          (fun x => globMatch e (pathName x.1))).map Prod.fst
      else []) ∧
    ((list_files folder none w).1 =
      if (takeErr w).1 = false ∧ w.fs.isDir folder = true then
        ((w.fs.children folder).filter (fun x => x.2.isFile)).map Prod.fst
      else []) :=
  ⟨list_files_glob_eq folder e w he, list_files_iterdir_eq folder w⟩

/-- Witness for the amended C3 at the concrete world `wdirglob`. -/
theorem C3_list_files_behaviour_witness :
    (".xlsx" : String) ≠ "" ∧
    (((list_files ["f"] (some ".xlsx") wdirglob).1 =
      if (takeErr wdirglob).1 = false ∧ wdirglob.fs.isDir ["f"] = true then
        ((wdirglob.fs.children ["f"]).filter
          (fun x => globMatch ".xlsx" (pathName x.1))).map Prod.fst
      else []) ∧
    ((list_files ["f"] none wdirglob).1 =
      if (takeErr wdirglob).1 = false ∧ wdirglob.fs.isDir ["f"] = true then
        ((wdirglob.fs.children ["f"]).filter (fun x => x.2.isFile)).map Prod.fst
      else [])) :=
  ⟨by decide, C3_list_files_behaviour ["f"] ".xlsx" wdirglob (by decide)⟩

theorem catchBool_false_log (okMsg errMsg : String)
    (body : World → Except Unit Unit × World) (w : World)
    (h : (catchBool okMsg errMsg body w).1 = false) :
    ∃ l0, ((catchBool okMsg errMsg body w).2).log = ⟨true, errMsg⟩ :: l0 := by
  unfold catchBool at h ⊢
  rcases hb : body w with ⟨exc, w''⟩
  rw [hb] at h
  cases exc with
  | ok u =>
      cases u
      exact Bool.noConfusion (show true = false from h)
  | error u => exact ⟨w''.log, rfl⟩

theorem catchBool_true_iff (okMsg errMsg : String)
    (body : World → Except Unit Unit × World) (w : World) :
    (catchBool okMsg errMsg body w).1 = true ↔ (body w).1 = Except.ok () := by
  unfold catchBool
  rcases hb : body w with ⟨exc, w''⟩
  cases exc with
  | ok u =>
      cases u
      simp
  | error u =>
      cases u
      simp

theorem isSuffixOf_nil_eq {l : List Char}
    (h : l.isSuffixOf ([] : List Char) = true) : l = [] := by
  cases l with
  | nil => rfl
  | cons c cs =>
      exfalso
      unfold List.isSuffixOf at h
      rcases hr : (c :: cs).reverse with _ | ⟨x, xs⟩
      · exact absurd hr (by simp)
      · rw [hr] at h
        simp [List.isPrefixOf] at h

theorem ne_empty_of_globMatch {e n : String} (h : globMatch e n = true)
    (he : e ≠ "") : n ≠ "" := by
  intro hn
  subst hn
  unfold globMatch at h
  exact he (String.ext (isSuffixOf_nil_eq h))

theorem glob_of_mem_list_files {folder : Path} {e : String} {w : World}
    {f : Path} (h : f ∈ (list_files folder (some e) w).1) (he : e ≠ "") :
    globMatch e (pathName f) = true := by
  rw [list_files_glob_eq folder e w he] at h
  split at h
  · obtain ⟨x, hx, hxf⟩ := List.mem_map.1 h
    have := (List.mem_filter.1 hx).2
    rw [hxf] at this
    exact this
  · cases h

theorem mem_organize_enum {source : Path} {w : World} {f : Path}
    (h : f ∈ (organize_enum source w).1) :
    globMatch ".xlsx" (pathName f) = true ∨
      globMatch ".xls" (pathName f) = true := by
  unfold organize_enum at h
  dsimp only at h
  rcases List.mem_append.1 h with h1 | h2
  · exact Or.inl (glob_of_mem_list_files h1 (by decide))
  · exact Or.inr (glob_of_mem_list_files h2 (by decide))

theorem nameStem_ne_empty {n : String} (h : n ≠ "") : nameStem n ≠ "" := by
  unfold nameStem splitName
  dsimp only
  cases hm : lastDotAux n.data 0 none with
  | none => exact h
  | some i =>
      dsimp only
      by_cases hc : 0 < i ∧ i < n.data.length - 1
      · rw [if_pos hc]
        intro heq
        have hdata : n.data.take i = [] := congrArg String.data heq
        rw [List.take_eq_nil_iff] at hdata
        rcases hdata with h0 | hnil
        · omega
        · exact h (String.ext hnil)
      · rw [if_neg hc]
        exact h

/-- Claim C4: once a file's destination folder is computed, the loop
iteration of `organize_excel_files` cannot fail — the boolean result of
`move_file` is never consulted — so the loop always continues with the
remaining enumerated files even when the move fails, and a failed move
emits its own `logger.error` entry. -/
theorem C4_continue_after_move_failure (source : Path) (ob : String)
    (f : Path) (rest : List Path) (w w' : World) (d : Path)
    (h : compute_dest source ob f w = (Except.ok d, w')) :
    organize_loop source ob (f :: rest) w =
      organize_loop source ob rest
        ((move_file f (d ++ [pathName f]) ((create_folder d w').2)).2) ∧
    ((move_file f (d ++ [pathName f]) ((create_folder d w').2)).1 = false →
      ∃ l0, ((move_file f (d ++ [pathName f]) ((create_folder d w').2)).2).log =
        ⟨true, "Error moving file " ++ pathStr f ++ " to " ++
          pathStr (d ++ [pathName f])⟩ :: l0) := by
  have hone : organize_one source ob f w =
      (Except.ok (),
        (move_file f (d ++ [pathName f]) ((create_folder d w').2)).2) := by
    unfold organize_one
    rw [h]
  constructor
  · have h0 : organize_loop source ob (f :: rest) w =
        match organize_one source ob f w with
        | (Except.ok (), w2) => organize_loop source ob rest w2
        | (Except.error e, w2) => (Except.error e, w2) := rfl
    rw [hone] at h0
    exact h0
  · intro hfail
    exact catchBool_false_log _ _ _ _ hfail

/-- Claim C5: under any criterion other than `date` and `size`, every
enumerated file — its filename is non-empty since it matched a glob, hence
its stem is non-empty — is bucketed into
`organized_by_name/<uppercased first character of the stem>` with no
special-casing of non-letter characters, and the loop iteration succeeds. -/
theorem C5_name_bucketing (source : Path) (ob : String) (f : Path) (w : World)
    (hd : ob ≠ "date") (hs : ob ≠ "size")
    (hf : f ∈ (organize_enum source w).1) :
    ∃ c rest, (nameStem (pathName f)).data = c :: rest ∧
      compute_dest source ob f w =
        (Except.ok (source ++ ["organized_by_name", String.mk [c.toUpper]]), w) ∧
      (organize_one source ob f w).1 = Except.ok () := by
  have hn : pathName f ≠ "" := by
    rcases mem_organize_enum hf with h | h
    · exact ne_empty_of_globMatch h (by decide)
    · exact ne_empty_of_globMatch h (by decide)
  have hstem := nameStem_ne_empty hn
  cases hc : (nameStem (pathName f)).data with
  | nil =>
      exact absurd (String.ext hc) hstem
  | cons c rest =>
      have hcd : compute_dest source ob f w =
          (Except.ok (source ++ ["organized_by_name", String.mk [c.toUpper]]),
            w) := by
        unfold compute_dest
        rw [if_neg hd, if_neg hs, hc]
      refine ⟨c, rest, rfl, hcd, ?_⟩
      unfold organize_one
      rw [hcd]

/-- A folder `s` with two spreadsheets and an error tape that makes the
first file's move fail (both folder creations succeed, then the rename and
the fallback copy raise `OSError`). -/
def wmove : World :=
  ⟨⟨[(["s"], Entry.dir),
     (["s", "a.xlsx"], Entry.file ⟨2048, ⟨2024, 1, 2, 3, 4, 5⟩, 7⟩),
     (["s", "zebra.xls"], Entry.file ⟨10, ⟨2024, 6, 2, 3, 4, 5⟩, 8⟩)]⟩,
   [false, false, true, true], []⟩

/-- Witness for C4: with the first file's move failing, the loop equation
still hands control to the remaining file. -/
theorem C4_continue_after_move_failure_witness :
    compute_dest ["s"] "name" ["s", "a.xlsx"] wmove =
      (Except.ok ["s", "organized_by_name", "A"], wmove) ∧
    (organize_loop ["s"] "name" (["s", "a.xlsx"] :: [["s", "zebra.xls"]]) wmove =
      organize_loop ["s"] "name" [["s", "zebra.xls"]]
        ((move_file ["s", "a.xlsx"]
          (["s", "organized_by_name", "A"] ++ [pathName ["s", "a.xlsx"]])
          ((create_folder ["s", "organized_by_name", "A"] wmove).2)).2) ∧
    ((move_file ["s", "a.xlsx"]
        (["s", "organized_by_name", "A"] ++ [pathName ["s", "a.xlsx"]])
        ((create_folder ["s", "organized_by_name", "A"] wmove).2)).1 = false →
      ∃ l0, ((move_file ["s", "a.xlsx"]
          (["s", "organized_by_name", "A"] ++ [pathName ["s", "a.xlsx"]])
          ((create_folder ["s", "organized_by_name", "A"] wmove).2)).2).log =
        ⟨true, "Error moving file " ++ pathStr ["s", "a.xlsx"] ++ " to " ++
          pathStr (["s", "organized_by_name", "A"] ++
            [pathName ["s", "a.xlsx"]])⟩ :: l0)) :=
  ⟨rfl, C4_continue_after_move_failure ["s"] "name" ["s", "a.xlsx"]
    [["s", "zebra.xls"]] wmove wmove ["s", "organized_by_name", "A"] rfl⟩

/-- A folder `s` holding a spreadsheet whose stem starts with a digit. -/
def wname : World :=
  ⟨⟨[(["s"], Entry.dir),
     (["s", "3data.xlsx"], Entry.file ⟨5, ⟨2024, 1, 1, 0, 0, 0⟩, 3⟩)]⟩, [], []⟩

/-- Witness for C5 at a file whose stem starts with the digit 3. -/
theorem C5_name_bucketing_witness :
    ("name" : String) ≠ "date" ∧ ("name" : String) ≠ "size" ∧
    ["s", "3data.xlsx"] ∈ (organize_enum ["s"] wname).1 ∧
    (∃ c rest, (nameStem (pathName ["s", "3data.xlsx"])).data = c :: rest ∧
      compute_dest ["s"] "name" ["s", "3data.xlsx"] wname =
        (Except.ok (["s"] ++ ["organized_by_name", String.mk [c.toUpper]]),
          wname) ∧
      (organize_one ["s"] "name" ["s", "3data.xlsx"] wname).1 = Except.ok ()) :=
  ⟨by decide, by decide, by decide,
    C5_name_bucketing ["s"] "name" ["s", "3data.xlsx"] wname
      (by decide) (by decide) (by decide)⟩

/-- Claim C6: on an error-free run, the backup is named
`<stem>_backup_<YYYYMMDD_HHMMSS><suffix>`, placed in the supplied backup
folder or in `<base>/backups` by default, that folder is created, and the
backup file carries the source file's data. -/
theorem C6_backup_naming (base excel : Path) (bf : Option Path)
    (now : DateTime) (w : World) (d : FileData)
    (he : w.errs = [])
    (hanc : ∀ q ∈ ancestors (bf.getD (base ++ ["backups"])),
      w.fs.isFile q = false)
    (hsrc : w.fs.lookup excel = some (Entry.file d))
    (hne : backupDest base excel bf now ≠ excel)
    (hnd : w.fs.lookup (backupDest base excel bf now) ≠ some Entry.dir) :
    (backup_excel_file base excel bf now w).1 =
      pathStr (bf.getD (base ++ ["backups"]) ++
        [nameStem (pathName excel) ++ "_backup_" ++ fmtTimestamp now ++
          nameSuffix (pathName excel)]) ∧
    ((backup_excel_file base excel bf now w).2).fs.isDir
      (bf.getD (base ++ ["backups"])) = true ∧
    ((backup_excel_file base excel bf now w).2).fs.lookup
      (backupDest base excel bf now) = some (Entry.file d) := by
  have hpp : pathParent (backupDest base excel bf now) =
      bf.getD (base ++ ["backups"]) := by
    unfold backupDest pathParent
    exact List.dropLast_concat
  have hlen : (backupDest base excel bf now).length =
      (bf.getD (base ++ ["backups"])).length + 1 := by
    unfold backupDest
    simp
  obtain ⟨_, _, he1, hdirs⟩ :=
    create_folder_ok (bf.getD (base ++ ["backups"])) w he hanc
  have hanc1 : ∀ q ∈ ancestors (pathParent (backupDest base excel bf now)),
      ((create_folder (bf.getD (base ++ ["backups"])) w).2).fs.isFile q
        = false := by
    intro q hq
    rw [hpp] at hq
    unfold FS.isFile
    rw [hdirs q hq]
  have hsrc1 : ((create_folder (bf.getD (base ++ ["backups"])) w).2).fs.lookup
      excel = some (Entry.file d) := create_folder_lookup_some _ _ hsrc
  have hnm : backupDest base excel bf now ∉
      ancestors (bf.getD (base ++ ["backups"])) := by
    intro hmem
    have := (length_of_mem_ancestors hmem).2
    omega
  have hnd1 : ((create_folder (bf.getD (base ++ ["backups"])) w).2).fs.lookup
      (backupDest base excel bf now) ≠ some Entry.dir := by
    rw [create_folder_lookup_not_mem _ _ hnm]
    exact hnd
  have hpp' : pathParent (backupDest base excel bf now) =
      bf.getD (base ++ ["backups"]) := hpp
  obtain ⟨hc1, hc2, hc3, hc4⟩ :=
    copy_file_ok excel (backupDest base excel bf now) d
      ((create_folder (bf.getD (base ++ ["backups"])) w).2) he1
      hanc1 hsrc1 hne hnd1
  have hfinal : (backup_excel_file base excel bf now w).2 =
      (copy_file excel (backupDest base excel bf now)
        ((create_folder (bf.getD (base ++ ["backups"])) w).2)).2 := rfl
  refine ⟨rfl, ?_, ?_⟩
  · rw [hfinal]
    by_cases hb : bf.getD (base ++ ["backups"]) = []
    · unfold FS.isDir
      simp [hb]
    · have hq : (bf.getD (base ++ ["backups"])) ≠
          backupDest base excel bf now := by
        intro hcontra
        have := congrArg List.length hcontra
        omega
      have hbB : ((create_folder (bf.getD (base ++ ["backups"])) w).2).fs.lookup
          (bf.getD (base ++ ["backups"])) = some Entry.dir :=
        hdirs _ (mem_ancestors_self hb)
      have h2 := create_folder_lookup_some
        (pathParent (backupDest base excel bf now))
        ((create_folder (bf.getD (base ++ ["backups"])) w).2) hbB
      unfold FS.isDir
      rw [hc4 _ hq, h2]
      simp
  · rw [hfinal]
    exact hc2

/-- A base folder `b` and a source file `data/report.xlsx`, error-free OS. -/
def wbackup : World :=
  ⟨⟨[(["b"], Entry.dir), (["data"], Entry.dir),
     (["data", "report.xlsx"], Entry.file ⟨77, ⟨2024, 2, 2, 2, 2, 2⟩, 9⟩)]⟩,
   [], []⟩

/-- Witness for C6: backing up `data/report.xlsx` at 2024-03-15 10:00:00
with no backup folder supplied. -/
theorem C6_backup_naming_witness :
    wbackup.errs = [] ∧
    (∀ q ∈ ancestors ((none : Option Path).getD (["b"] ++ ["backups"])),
      wbackup.fs.isFile q = false) ∧
    wbackup.fs.lookup ["data", "report.xlsx"] =
      some (Entry.file ⟨77, ⟨2024, 2, 2, 2, 2, 2⟩, 9⟩) ∧
    backupDest ["b"] ["data", "report.xlsx"] none ⟨2024, 3, 15, 10, 0, 0⟩ ≠
      ["data", "report.xlsx"] ∧
    wbackup.fs.lookup (backupDest ["b"] ["data", "report.xlsx"] none
      ⟨2024, 3, 15, 10, 0, 0⟩) ≠ some Entry.dir ∧
    ((backup_excel_file ["b"] ["data", "report.xlsx"] none
        ⟨2024, 3, 15, 10, 0, 0⟩ wbackup).1 =
      pathStr ((none : Option Path).getD (["b"] ++ ["backups"]) ++
        [nameStem (pathName ["data", "report.xlsx"]) ++ "_backup_" ++
          fmtTimestamp ⟨2024, 3, 15, 10, 0, 0⟩ ++
          nameSuffix (pathName ["data", "report.xlsx"])]) ∧
    ((backup_excel_file ["b"] ["data", "report.xlsx"] none
        ⟨2024, 3, 15, 10, 0, 0⟩ wbackup).2).fs.isDir
      ((none : Option Path).getD (["b"] ++ ["backups"])) = true ∧
    ((backup_excel_file ["b"] ["data", "report.xlsx"] none
        ⟨2024, 3, 15, 10, 0, 0⟩ wbackup).2).fs.lookup
      (backupDest ["b"] ["data", "report.xlsx"] none
        ⟨2024, 3, 15, 10, 0, 0⟩) =
      some (Entry.file ⟨77, ⟨2024, 2, 2, 2, 2, 2⟩, 9⟩)) :=
  ⟨rfl, by decide, rfl, by decide, by decide,
    C6_backup_naming ["b"] ["data", "report.xlsx"] none ⟨2024, 3, 15, 10, 0, 0⟩
      wbackup ⟨77, ⟨2024, 2, 2, 2, 2, 2⟩, 9⟩ rfl (by decide) rfl
      (by decide) (by decide)⟩

theorem catchBool_fs (okMsg errMsg : String)
    (body : World → Except Unit Unit × World) (w : World) :
    ((catchBool okMsg errMsg body w).2).fs = ((body w).2).fs := by
  unfold catchBool
  rcases hb : body w with ⟨exc, w''⟩
  cases exc with
  | ok u => cases u; rfl
  | error u => rfl

theorem catchBool_false_iff (okMsg errMsg : String)
    (body : World → Except Unit Unit × World) (w : World) :
    (catchBool okMsg errMsg body w).1 = false ↔
      (body w).1 = Except.error () := by
  unfold catchBool
  rcases hb : body w with ⟨exc, w''⟩
  cases exc with
  | ok u => cases u; simp
  | error u => cases u; simp

theorem os_rename_error_fs (src dst : Path) (w : World)
    (h : (os_rename src dst w).1 = Except.error ()) :
    ((os_rename src dst w).2).fs = w.fs := by
  unfold os_rename at h ⊢
  rcases htk : takeErr w with ⟨b, w1⟩
  rw [htk] at h
  have hfs : w1.fs = w.fs := by rw [← takeErr_fs w, htk]
  cases b with
  | true => exact hfs
  | false =>
      simp only [Bool.false_eq_true, if_false] at h ⊢
      cases hl : w1.fs.lookup src with
      | none => exact hfs
      | some ent =>
          rw [hl] at h
          cases ent with
          | file d =>
              dsimp only at h ⊢
              by_cases hsd : src = dst
              · rw [if_pos hsd] at h
                exact absurd h (by simp)
              · rw [if_neg hsd] at h ⊢
                by_cases hpd : w1.fs.isDir (pathParent dst) = true
                · rw [if_pos hpd] at h ⊢
                  cases hld : w1.fs.lookup dst with
                  | none =>
                      rw [hld] at h
                      exact absurd h (by simp)
                  | some e2 =>
                      rw [hld] at h
                      cases e2 with
                      | dir => exact hfs
                      | file d2 => exact absurd h (by simp)
                · rw [if_neg hpd] at h ⊢
                  exact hfs
          | dir =>
              dsimp only at h ⊢
              by_cases hsd : src = dst
              · rw [if_pos hsd] at h
                exact absurd h (by simp)
              · rw [if_neg hsd] at h ⊢
                by_cases hcond : w1.fs.isDir (pathParent dst) = true ∧
                    w1.fs.lookup dst = none ∧ ¬ src.isPrefixOf dst
                · rw [if_pos hcond] at h
                  exact absurd h (by simp)
                · rw [if_neg hcond] at h ⊢
                  exact hfs

theorem os_unlink_error_fs (p : Path) (w : World)
    (h : (os_unlink p w).1 = Except.error ()) :
    ((os_unlink p w).2).fs = w.fs := by
  unfold os_unlink at h ⊢
  rcases htk : takeErr w with ⟨b, w1⟩
  rw [htk] at h
  have hfs : w1.fs = w.fs := by rw [← takeErr_fs w, htk]
  cases b with
  | true => exact hfs
  | false =>
      dsimp only at h ⊢
      cases hl : w1.fs.lookup p with
      | none => exact hfs
      | some ent =>
          cases ent with
          | file d => rw [hl] at h; exact absurd h (by simp)
          | dir => exact hfs

theorem shutil_copy2_lookup_src (src dst : Path) (w : World) :
    ((shutil_copy2 src dst w).2).fs.lookup src = w.fs.lookup src := by
  unfold shutil_copy2
  rcases htk : takeErr w with ⟨b, w1⟩
  have hfs : w1.fs = w.fs := by rw [← takeErr_fs w, htk]
  cases b with
  | true =>
      dsimp only
      rw [if_pos rfl]
      rw [hfs]
  | false =>
      dsimp only
      rw [if_neg Bool.false_ne_true]
      cases hl : w1.fs.lookup src with
      | none =>
          dsimp only
          rw [hfs]
      | some ent =>
          cases ent with
          | dir =>
              dsimp only
              rw [hfs]
          | file d =>
              dsimp only
              by_cases hts : (if w1.fs.lookup dst = some Entry.dir
                  then dst ++ [pathName src] else dst) = src
              · rw [if_pos hts]
                dsimp only
                rw [hfs]
              · rw [if_neg hts]
                by_cases hpd : w1.fs.isDir (pathParent
                    (if w1.fs.lookup dst = some Entry.dir
                      then dst ++ [pathName src] else dst)) = true
                · rw [if_pos hpd]
                  cases hlt : w1.fs.lookup (if w1.fs.lookup dst =
                      some Entry.dir then dst ++ [pathName src] else dst) with
                  | none =>
                      dsimp only
                      rw [lookup_setFile_ne _ _ _ _ (fun hh => hts hh.symm), hfs]
                  | some e2 =>
                      cases e2 with
                      | dir =>
                          dsimp only
                          rw [hfs]
                      | file d2 =>
                          dsimp only
                          rw [lookup_setFile_ne _ _ _ _ (fun hh => hts hh.symm),
                            hfs]
                · rw [if_neg hpd]
                  dsimp only
                  rw [hfs]

theorem shutil_move_error_keeps_source (src dst : Path) (w1 : World)
    (d : FileData) (hsrc : w1.fs.lookup src = some (Entry.file d))
    (herr : (shutil_move src dst w1).1 = Except.error ()) :
    ((shutil_move src dst w1).2).fs.lookup src = some (Entry.file d) := by
  unfold shutil_move at herr ⊢
  dsimp only at herr ⊢
  by_cases hg : w1.fs.lookup dst = some Entry.dir ∧
      w1.fs.lookup (if w1.fs.lookup dst = some Entry.dir
        then dst ++ [pathName src] else dst) ≠ none
  · rw [if_pos hg] at herr ⊢
    exact hsrc
  · rw [if_neg hg] at herr ⊢
    rcases hr : os_rename src (if w1.fs.lookup dst = some Entry.dir
      then dst ++ [pathName src] else dst) w1 with ⟨er, wr⟩
    rw [hr] at herr
    cases er with
    | ok u =>
        cases u
        dsimp only at herr
        exact Except.noConfusion herr
    | error u =>
        cases u
        dsimp only at herr ⊢
        have hwr : wr.fs = w1.fs := by
          have h0 := os_rename_error_fs src (if w1.fs.lookup dst =
            some Entry.dir then dst ++ [pathName src] else dst) w1 (by rw [hr])
          rw [hr] at h0
          exact h0
        rcases hcp : shutil_copy2 src (if w1.fs.lookup dst = some Entry.dir
          then dst ++ [pathName src] else dst) wr with ⟨ec, wc⟩
        rw [hcp] at herr
        have hwc : wc.fs.lookup src = some (Entry.file d) := by
          have h0 := shutil_copy2_lookup_src src (if w1.fs.lookup dst =
            some Entry.dir then dst ++ [pathName src] else dst) wr
          rw [hcp] at h0
          rw [h0, hwr]
          exact hsrc
        cases ec with
        | error u2 =>
            cases u2
            exact hwc
        | ok u2 =>
            cases u2
            dsimp only at herr ⊢
            have hue := os_unlink_error_fs src wc herr
            rw [hue]
            exact hwc

/-- Claim C7: when `move_file` reports failure, the source file is still
present with its original data — `shutil.move`'s rename leaves the
filesystem unchanged on error, the `copy2` fallback never writes to the
source (copying a file onto itself raises before writing), and a failed
unlink leaves the source in place. -/
theorem C7_move_failure_keeps_source (src dst : Path) (w : World)
    (d : FileData) (hsrc : w.fs.lookup src = some (Entry.file d))
    (hfail : (move_file src dst w).1 = false) :
    ((move_file src dst w).2).fs.lookup src = some (Entry.file d) := by
  have hbody : (move_file_body src dst w).1 = Except.error () :=
    (catchBool_false_iff _ _ _ _).1 hfail
  have hfs : ((move_file src dst w).2).fs = ((move_file_body src dst w).2).fs :=
    catchBool_fs _ _ _ _
  rw [hfs]
  have hsrc1 : ((create_folder (pathParent dst) w).2).fs.lookup src =
      some (Entry.file d) := create_folder_lookup_some _ _ hsrc
  exact shutil_move_error_keeps_source src dst _ d hsrc1 hbody

/-- A folder `s` with one file and an error tape making its move fail
(folder creation succeeds, rename and fallback copy raise). -/
def wmove2 : World :=
  ⟨⟨[(["s"], Entry.dir),
     (["s", "a.xlsx"], Entry.file ⟨2048, ⟨2024, 1, 2, 3, 4, 5⟩, 7⟩)]⟩,
   [false, true, true], []⟩

/-- Witness for C7: a concrete failed move leaves the source file bound to
its original data. -/
theorem C7_move_failure_keeps_source_witness :
    wmove2.fs.lookup ["s", "a.xlsx"] =
      some (Entry.file ⟨2048, ⟨2024, 1, 2, 3, 4, 5⟩, 7⟩) ∧
    (move_file ["s", "a.xlsx"] ["s", "organized_by_name", "A", "a.xlsx"]
      wmove2).1 = false ∧
    ((move_file ["s", "a.xlsx"] ["s", "organized_by_name", "A", "a.xlsx"]
      wmove2).2).fs.lookup ["s", "a.xlsx"] =
      some (Entry.file ⟨2048, ⟨2024, 1, 2, 3, 4, 5⟩, 7⟩) :=
  ⟨rfl, by decide,
    C7_move_failure_keeps_source ["s", "a.xlsx"]
      ["s", "organized_by_name", "A", "a.xlsx"] wmove2
      ⟨2048, ⟨2024, 1, 2, 3, 4, 5⟩, 7⟩ rfl (by decide)⟩

/-- Claim C8: every primitive catches all errors at its own `try/except`
boundary and converts them to a boolean (or, for listing, an empty-list)
result instead of raising — each operation is a total function whose
boolean is `True` exactly when its raised-or-returned body succeeded, and
`list_files` yields the listed paths on success and `[]` when the body
raised. -/
theorem C8_fail_soft (p src dst folder : Path) (ext : Option String)
    (w : World) :
    ((create_folder p w).1 = true ↔
      (create_folder_body p w).1 = Except.ok ()) ∧
    ((copy_file src dst w).1 = true ↔
      (copy_file_body src dst w).1 = Except.ok ()) ∧
    ((move_file src dst w).1 = true ↔
      (move_file_body src dst w).1 = Except.ok ()) ∧
    ((copy_folder src dst w).1 = true ↔
      (copy_folder_body src dst w).1 = Except.ok ()) ∧
    ((move_folder src dst w).1 = true ↔
      (move_folder_body src dst w).1 = Except.ok ()) ∧
    ((delete_file p w).1 = true ↔
      (delete_file_body p w).1 = Except.ok ()) ∧
    ((delete_folder p w).1 = true ↔
      (delete_folder_body p w).1 = Except.ok ()) ∧
    (∀ l, (list_files_body folder ext w).1 = Except.ok l →
      (list_files folder ext w).1 = l) ∧
    ((list_files_body folder ext w).1 = Except.error () →
      (list_files folder ext w).1 = []) := by
  refine ⟨catchBool_true_iff _ _ _ _, catchBool_true_iff _ _ _ _,
    catchBool_true_iff _ _ _ _, catchBool_true_iff _ _ _ _,
    catchBool_true_iff _ _ _ _, catchBool_true_iff _ _ _ _,
    catchBool_true_iff _ _ _ _, ?_, ?_⟩
  · intro l hl
    unfold list_files
    rcases hb : list_files_body folder ext w with ⟨exc, w'⟩
    rw [hb] at hl
    cases exc with
    | ok l2 =>
        dsimp only at hl ⊢
        exact Except.ok.inj hl
    | error u =>
        cases u
        dsimp only at hl
        exact Except.noConfusion hl
  · intro hl
    unfold list_files
    rcases hb : list_files_body folder ext w with ⟨exc, w'⟩
    rw [hb] at hl
    cases exc with
    | ok l2 =>
        dsimp only at hl
        exact Except.noConfusion hl
    | error u =>
        cases u
        rfl

theorem count_keys_bridge (l : List Path) (p : Path) :
    @List.count Path List.instBEq p l =
      @List.count Path instBEqOfDecidableEq p l := by
  induction l with
  | nil => rfl
  | cons x xs ih =>
      by_cases hxp : x = p <;> simp [List.count_cons, hxp, ih]

/-- Claim C9: folder creation is idempotent — on an error-free run with no
file standing in the way, both of two successive calls succeed, the second
changes nothing, and the path exists exactly once afterwards. -/
theorem C9_create_folder_idempotent (p : Path) (w : World)
    (he : w.errs = [])
    (hanc : ∀ q ∈ ancestors p, w.fs.isFile q = false)
    (hnd : (w.fs.entries.map Prod.fst).Nodup) :
    (create_folder p w).1 = true ∧
    (create_folder p ((create_folder p w).2)).1 = true ∧
    ((create_folder p ((create_folder p w).2)).2).fs =
      ((create_folder p w).2).fs ∧
    ((create_folder p w).2).fs.isDir p = true ∧
    (p ≠ [] →
      ((((create_folder p w).2).fs.entries.map Prod.fst).count p) = 1) := by
  obtain ⟨h1, hfs1, he1, hdirs⟩ := create_folder_ok p w he hanc
  have hanc2 : ∀ q ∈ ancestors p,
      ((create_folder p w).2).fs.isFile q = false := by
    intro q hq
    unfold FS.isFile
    rw [hdirs q hq]
  obtain ⟨h2, hfs2, he2, _⟩ :=
    create_folder_ok p ((create_folder p w).2) he1 hanc2
  refine ⟨h1, h2, ?_, ?_, ?_⟩
  · rw [hfs2]
    exact congrArg Prod.snd (mkdirList_noop (fun q hq => hdirs q hq))
  · by_cases hp : p = []
    · unfold FS.isDir
      simp [hp]
    · unfold FS.isDir
      rw [hdirs p (mem_ancestors_self hp)]
      simp
  · intro hp
    have hnd1 : (((create_folder p w).2).fs.entries.map Prod.fst).Nodup := by
      rw [hfs1]
      exact mkdirList_nodup hnd
    have hmem : p ∈ ((create_folder p w).2).fs.entries.map Prod.fst :=
      mem_keys_of_lookup_some (hdirs p (mem_ancestors_self hp))
    rw [count_keys_bridge]
    exact List.count_eq_one_of_mem hnd1 hmem

/-- Witness for C9: creating `a/b` twice on an empty filesystem. -/
theorem C9_create_folder_idempotent_witness :
    wempty.errs = [] ∧
    (∀ q ∈ ancestors ["a", "b"], wempty.fs.isFile q = false) ∧
    (wempty.fs.entries.map Prod.fst).Nodup ∧
    ((create_folder ["a", "b"] wempty).1 = true ∧
    (create_folder ["a", "b"] ((create_folder ["a", "b"] wempty).2)).1 = true ∧
    ((create_folder ["a", "b"] ((create_folder ["a", "b"] wempty).2)).2).fs =
      ((create_folder ["a", "b"] wempty).2).fs ∧
    ((create_folder ["a", "b"] wempty).2).fs.isDir ["a", "b"] = true ∧
    (["a", "b"] ≠ ([] : Path) →
      ((((create_folder ["a", "b"] wempty).2).fs.entries.map
        Prod.fst).count ["a", "b"]) = 1)) :=
  ⟨rfl, by decide, by decide,
    C9_create_folder_idempotent ["a", "b"] wempty rfl (by decide) (by decide)⟩

/-- Claim C10: the flag `organize_excel_files` returns reflects only whether
an exception escaped the loop body — it is `True` exactly when the loop over
the enumerated files finished; an iteration succeeds whenever the per-file
stat/bucket computation succeeds, irrespective of the boolean results of
`create_folder` and `move_file`, and raises exactly when that computation
raises. -/
theorem C10_return_flag (source : Path) (ob : String) (w : World) :
    ((organize_excel_files source ob w).1 = true ↔
      (organize_loop source ob (organize_enum source w).1
        (organize_enum source w).2).1 = Except.ok ()) ∧
    (∀ f v d v', compute_dest source ob f v = (Except.ok d, v') →
      (organize_one source ob f v).1 = Except.ok ()) ∧
    (∀ f v, (compute_dest source ob f v).1 = Except.error () →
      (organize_one source ob f v).1 = Except.error ()) := by
  refine ⟨?_, ?_, ?_⟩
  · unfold organize_excel_files
    dsimp only
    rcases hl : organize_loop source ob (organize_enum source w).1
      (organize_enum source w).2 with ⟨exc, w'⟩
    cases exc with
    | ok u =>
        cases u
        simp
    | error u =>
        cases u
        simp
  · intro f v d v' h
    unfold organize_one
    rw [h]
  · intro f v h
    unfold organize_one
    rcases hc : compute_dest source ob f v with ⟨exc, v2⟩
    rw [hc] at h
    cases exc with
    | ok d2 =>
        dsimp only at h
        exact Except.noConfusion h
    | error u =>
        cases u
        rfl

end FileHandler
